import Mathlib

/-
Shallow embedding of src/index.ts from joelspadin/webextension-storage.

The facade class StorageArea wraps a browser storage backend.  JS objects
used as dictionaries (the defaults map, the backend store, the accessor
cache, the listener registry) are embedded as association lists in key
insertion order with first-occurrence lookup; JS objects always have
distinct keys, so a Nodup hypothesis appears where a proof needs it.
JS runtime values that flow through untyped positions are embedded as the
inductive Value; object identity of accessor objects is embedded as a
fresh numeric id allocated at creation time.
-/

set_option autoImplicit false

namespace WebextStorage

/-- Embedded JS runtime value, covering the shapes the library inspects:
typeof checks distinguish strings and functions, truthiness tests
distinguish falsy values, and undefined is the result of indexing an
absent key.  A function value carries an opaque identifier. -/
inductive Value where
  | undefined
  | null
  | boolean (b : Bool)
  | number (n : Int)
  | string (s : String)
  | func (id : Nat)
deriving DecidableEq, Repr

/-- JS truthiness, as tested by the conditional in _getListenerArgs. -/
def truthy : Value → Bool
  | .undefined => false
  | .null => false
  | .boolean b => b
  | .number n => n != 0
  | .string s => s != ""
  | .func _ => true

/-- Result of the JS check typeof v === the string type string. -/
def typeofIsString : Value → Bool
  | .string _ => true
  | _ => false

/-- Result of the JS check typeof v === the function type string. -/
def typeofIsFunction : Value → Bool
  | .func _ => true
  | _ => false

/-- First-occurrence lookup in an association list, the embedding of
reading a property of a JS dictionary object. -/
def lookup? {α β : Type} [DecidableEq α] (m : List (α × β)) (k : α) : Option β :=
  match m with
  | [] => none
  | (k2, v) :: rest => if k2 = k then some v else lookup? rest k

/-- Embedding of the JS test key in obj on a dictionary object. -/
def hasKey {α β : Type} [DecidableEq α] (m : List (α × β)) (k : α) : Bool :=
  (lookup? m k).isSome

/-- Embedding of JS obj[k], which yields undefined for an absent key. -/
def indexObj (m : List (String × Value)) (k : String) : Value :=
  (lookup? m k).getD .undefined

/-- Property assignment obj[k] = v on a dictionary object: replaces the
value in place when the key is present, otherwise appends the key at the
end of the insertion order. -/
def upsert {α β : Type} [DecidableEq α] (m : List (α × β)) (k : α) (v : β) :
    List (α × β) :=
  if hasKey m k then
    m.map (fun p => if p.1 = k then (k, v) else p)
  else
    m ++ [(k, v)]

/-- Backend storage area state: the stored map plus the log of the bulk
writes performed on it, in order.  A backend set call merges the written
items into the stored map and appends one log entry. -/
structure Backend where
  store : List (String × Value)
  writes : List (List (String × Value))
deriving DecidableEq, Repr

/-- Merge of one bulk write into the stored map: the items are applied
in order, each as a property assignment. -/
def mergeItems (store items : List (String × Value)) : List (String × Value) :=
  items.foldl (fun acc p => upsert acc p.1 p.2) store

/-- Embedding of a backend bulk write. -/
def backendSet (b : Backend) (items : List (String × Value)) : Backend :=
  { store := mergeItems b.store items, writes := b.writes ++ [items] }

/-- Embedding of a backend read of one key: the returned object is the
stored map restricted to the requested key when it is present. -/
def backendGetSingle (b : Backend) (key : String) : List (String × Value) :=
  b.store.filter (fun p => p.1 = key)

/-- Key of the listener registry: a setting name or the reserved
AllSettings symbol, which by construction differs from every string. -/
inductive LKey where
  | key (s : String)
  | allSettings
deriving DecidableEq, Repr

/-- JS Set add: appends at the end when absent, idempotent otherwise. -/
def setAdd (l : List Value) (v : Value) : List Value :=
  if v ∈ l then l else l ++ [v]

/-- JS Set delete: removes the element, keeping the order of the rest. -/
def setDelete (l : List Value) (v : Value) : List Value :=
  l.erase v

/-- Embedding of one accessor object.  The id field embeds JS object
identity: _makeAccessor allocates a fresh id, so two accessor values
denote the same object exactly when the ids agree. -/
structure Accessor where
  id : Nat
  key : String
  default : Value
deriving DecidableEq, Repr

/-- Embedding of the mutable state of one StorageArea instance, plus the
attached flag recording whether its _onChanged handler is currently
subscribed to the shared browser.storage.onChanged feed. -/
structure StorageAreaState where
  defaults : List (String × Value)
  storageName : String
  accessors : List (String × Accessor)
  listeners : List (LKey × List Value)
  nextAccessorId : Nat
  attached : Bool
deriving DecidableEq, Repr

/-- Embedding of get(key): the backend result object indexed at key,
which is undefined when the key is not stored. -/
def facadeGet (b : Backend) (key : String) : Value :=
  indexObj (backendGetSingle b key) key

/-- Embedding of get() with no argument: the full stored map. -/
def facadeGetAll (b : Backend) : List (String × Value) :=
  b.store

/-- Embedding of set(key, value): the pair is wrapped into a one-item
object and written in one bulk write. -/
def facadeSetKV (b : Backend) (key : String) (v : Value) : Backend :=
  backendSet b [(key, v)]

/-- Embedding of set(items): one bulk write of the given items. -/
def facadeSetItems (b : Backend) (items : List (String × Value)) : Backend :=
  backendSet b items

/-- Embedding of reset(key).  On a key missing from the defaults map the
code throws before reaching any backend call, so the error case returns
the backend unchanged. -/
def facadeReset (s : StorageAreaState) (b : Backend) (key : String) :
    Except String Unit × Backend :=
  if hasKey s.defaults key then
    (.ok (), facadeSetKV b key (indexObj s.defaults key))
  else
    (.error ("No default value for setting: " ++ key), b)

/-- Items written by initDefaults: the defaults entries whose key is
absent from the stored map read at the start of the call. -/
def initDefaultsItems (defaults stored : List (String × Value)) :
    List (String × Value) :=
  defaults.filter (fun p => !(hasKey stored p.1))

/-- Embedding of initDefaults(): reads the full stored map and performs
one bulk write of the unset items. -/
def facadeInitDefaults (s : StorageAreaState) (b : Backend) : Backend :=
  backendSet b (initDefaultsItems s.defaults b.store)

/-- Embedding of resetAll(): one bulk write of the whole defaults map. -/
def facadeResetAll (s : StorageAreaState) (b : Backend) : Backend :=
  facadeSetItems b s.defaults

/-- Embedding of _makeAccessor: builds the accessor record, reading its
default field from this.defaults[key] (undefined when the key is outside
the schema), stores it in the accessor cache, and returns it. -/
def makeAccessor (s : StorageAreaState) (key : String) :
    Accessor × StorageAreaState :=
  let a : Accessor :=
    { id := s.nextAccessorId, key := key, default := indexObj s.defaults key }
  (a, { s with accessors := upsert s.accessors key a,
               nextAccessorId := s.nextAccessorId + 1 })

/-- Embedding of accessor(key): the cached accessor when one is present
(accessor objects are always truthy), otherwise a fresh one. -/
def accessor (s : StorageAreaState) (key : String) :
    Accessor × StorageAreaState :=
  match lookup? s.accessors key with
  | some a => (a, s)
  | none => makeAccessor s key

/-- Closure get of an accessor: forwards to facade get at the key the
accessor captured. -/
def Accessor.get (a : Accessor) (b : Backend) : Value :=
  facadeGet b a.key

/-- Closure set of an accessor: forwards to facade set at its key. -/
def Accessor.set (a : Accessor) (b : Backend) (v : Value) : Backend :=
  facadeSetKV b a.key v

/-- Closure reset of an accessor: forwards to facade reset at its key. -/
def Accessor.reset (a : Accessor) (s : StorageAreaState) (b : Backend) :
    Except String Unit × Backend :=
  facadeReset s b a.key

/-- Embedding of _getListenerArgs.  The overload dispatch tests the
second argument for truthiness; the two-argument shape then checks only
that the first argument is a string, and the one-argument shape checks
that its single argument is a function. -/
def getListenerArgs (a0 a1 : Value) : Except String (LKey × Value) :=
  if truthy a1 then
    match a0 with
    | .string s => .ok (LKey.key s, a1)
    | _ => .error "Expected key to be a string"
  else
    match a0 with
    | .func _ => .ok (LKey.allSettings, a0)
    | _ => .error "Expected callback to be a function"

/-- Registry update of addListener after argument validation: add to the
existing set of the key when one exists, otherwise bind the key to a new
singleton set. -/
def regAdd (l : List (LKey × List Value)) (k : LKey) (cb : Value) :
    List (LKey × List Value) :=
  if hasKey l k then
    l.map (fun p => if p.1 = k then (k, setAdd p.2 cb) else p)
  else
    l ++ [(k, [cb])]

/-- Registry update of removeListener: delete from the set of the key
when one exists, otherwise leave the registry as it is. -/
def regRemove (l : List (LKey × List Value)) (k : LKey) (cb : Value) :
    List (LKey × List Value) :=
  l.map (fun p => if p.1 = k then (p.1, setDelete p.2 cb) else p)

/-- Embedding of addListener: the code throws during argument validation
before touching the registry, so the error case returns the state
unchanged. -/
def facadeAddListener (s : StorageAreaState) (a0 a1 : Value) :
    Except String Unit × StorageAreaState :=
  match getListenerArgs a0 a1 with
  | .error e => (.error e, s)
  | .ok (k, cb) => (.ok (), { s with listeners := regAdd s.listeners k cb })

/-- Embedding of removeListener, validated the same way. -/
def facadeRemoveListener (s : StorageAreaState) (a0 a1 : Value) :
    Except String Unit × StorageAreaState :=
  match getListenerArgs a0 a1 with
  | .error e => (.error e, s)
  | .ok (k, cb) => (.ok (), { s with listeners := regRemove s.listeners k cb })

/-- Closure addListener of an accessor: forwards to the two-argument
facade call with the captured key. -/
def Accessor.addListener (a : Accessor) (s : StorageAreaState) (cb : Value) :
    Except String Unit × StorageAreaState :=
  facadeAddListener s (.string a.key) cb

/-- Closure removeListener of an accessor. -/
def Accessor.removeListener (a : Accessor) (s : StorageAreaState) (cb : Value) :
    Except String Unit × StorageAreaState :=
  facadeRemoveListener s (.string a.key) cb

/-- Embedding of the per-key change record delivered to listeners. -/
structure StorageChange where
  oldValue : Option Value
  newValue : Option Value
deriving DecidableEq, Repr

/-- One listener invocation: the callback value that was called, the
change record and the key it received. -/
abbrev Invocation := Value × StorageChange × String

/-- Embedding of the inner _send loop.  The throws parameter gives the
behavior of each callback value when invoked: true means the invocation
raises an exception.  The result lists the invocations that were
started, in order, with a flag that is false when an exception escaped,
in which case the loop stopped at the raising callback. -/
def sendList (throws : Value → Bool) (chg : StorageChange) (key : String) :
    List Value → List Invocation × Bool
  | [] => ([], true)
  | cb :: rest =>
    if throws cb then ([(cb, chg, key)], false)
    else
      let r := sendList throws chg key rest
      ((cb, chg, key) :: r.1, r.2)

/-- Dispatch for one changed key: the key-specific listener set first,
then the AllSettings set; an exception escaping the first loop prevents
the second from running at all. -/
def dispatchOne (throws : Value → Bool) (listeners : List (LKey × List Value))
    (chg : StorageChange) (key : String) : List Invocation × Bool :=
  let r1 :=
    match lookup? listeners (LKey.key key) with
    | some lst => sendList throws chg key lst
    | none => ([], true)
  if r1.2 then
    match lookup? listeners LKey.allSettings with
    | some lst =>
      let r2 := sendList throws chg key lst
      (r1.1 ++ r2.1, r2.2)
    | none => r1
  else r1

/-- Dispatch over every changed key of one event, in object order; an
exception escaping one key prevents later keys from being processed. -/
def dispatchAll (throws : Value → Bool) (listeners : List (LKey × List Value)) :
    List (String × StorageChange) → List Invocation × Bool
  | [] => ([], true)
  | (k, c) :: rest =>
    let r := dispatchOne throws listeners c k
    if r.2 then
      let r2 := dispatchAll throws listeners rest
      (r.1 ++ r2.1, r2.2)
    else r

/-- Embedding of the _onChanged handler: an event whose area name is not
the configured one returns before any listener is consulted. -/
def onChanged (throws : Value → Bool) (s : StorageAreaState)
    (changes : List (String × StorageChange)) (areaName : String) :
    List Invocation × Bool :=
  if areaName = s.storageName then dispatchAll throws s.listeners changes
  else ([], true)

/-- Delivery of one backend event to the instance: browser.storage
invokes the registered _onChanged handler only while that handler is
subscribed to the feed. -/
def deliverEvent (throws : Value → Bool) (s : StorageAreaState)
    (changes : List (String × StorageChange)) (areaName : String) :
    List Invocation × Bool :=
  if s.attached then onChanged throws s changes areaName else ([], true)

/-- Embedding of dispose(): unsubscribes the handler from the feed and
deletes every own entry of the listener registry. -/
def dispose (s : StorageAreaState) : StorageAreaState :=
  { s with attached := false, listeners := [] }

/-- Own properties of the instance at the moment _makeProperties runs:
the four field initializers and the two assignments made by the
constructor body beforehand.  Class methods such as get, set, reset,
accessor, addListener, removeListener and dispose live on
StorageArea.prototype, not on the instance, so hasOwnProperty does not
report them. -/
def constructionOwnFields : List String :=
  ["defaults", "_storage", "_storageName", "_accessors", "_listeners",
   "_onChanged"]

/-- Method names declared by the class; they sit on the prototype. -/
def prototypeMethods : List String :=
  ["constructor", "get", "initDefaults", "isDefined", "reset", "resetAll",
   "set", "accessor", "addListener", "removeListener", "dispose",
   "_getListenerArgs", "_makeAccessor", "_makeProperties"]

/-- Embedding of _makeProperties: the names of the accessor-resolving
fields defined on the instance, one per defaults key passing the
hasOwnProperty filter, each bound to a getter resolving to
accessor(key).  The list is computed once, at construction. -/
def makeProperties (defaults : List (String × Value)) : List String :=
  (defaults.map Prod.fst).filter (fun k => !(constructionOwnFields.contains k))

/-- Names of the three known backend areas. -/
def STORAGE_AREAS : List String := ["local", "managed", "sync"]

/-- Embedding of the constructor reached through create: picks the area
name, rejects an unknown one, builds the initial instance state and
subscribes the change handler. -/
def create (defaults : List (String × Value)) (storageArea : Option String) :
    Except String StorageAreaState :=
  let name := storageArea.getD "local"
  if STORAGE_AREAS.contains name then
    .ok { defaults := defaults, storageName := name, accessors := [],
          listeners := [], nextAccessorId := 0, attached := true }
  else
    .error ("Invalid storage area: " ++ name)

/-- Fresh facade instance over the local area with an empty schema, as
built by create before any accessor or listener exists. -/
def freshState : StorageAreaState :=
  { defaults := [], storageName := "local", accessors := [], listeners := [],
    nextAccessorId := 0, attached := true }

/-- Listener behavior in which invoking the callback func 0 raises an
exception and every other callback returns normally. -/
def throwsFunc0 : Value → Bool
  | .func 0 => true
  | _ => false

/-- Instance with the callbacks func 0 and func 1 registered, in that
order, for the key named k. -/
def twoListenerState : StorageAreaState :=
  { freshState with listeners := [(LKey.key "k", [Value.func 0, Value.func 1])] }

/-- Sample change record carrying a new value and no old value. -/
def sampleChange : StorageChange :=
  { oldValue := none, newValue := some (Value.number 5) }

/-- Instance whose schema declares the key a with default 2 and the key
b with default 3. -/
def sampleDefaultsState : StorageAreaState :=
  { freshState with defaults := [("a", Value.number 2), ("b", Value.number 3)] }

/-- Backend whose store holds only the key a with value 1 and whose
write log is empty. -/
def sampleBackend : Backend :=
  { store := [("a", Value.number 1)], writes := [] }

/-- Invocation sequence planned for one matching event: for each changed
key in event order, the key-specific listeners first and then the
AllSettings listeners, each in registration order and paired with the
change record and key name it would receive. -/
def dispatchPlan (listeners : List (LKey × List Value))
    (changes : List (String × StorageChange)) : List Invocation :=
  changes.flatMap (fun p =>
    (((lookup? listeners (LKey.key p.1)).getD [])
      ++ ((lookup? listeners LKey.allSettings).getD [])).map
        (fun cb => (cb, p.2, p.1)))

/-- Cut of an invocation sequence at the first raising callback: the
invocations before it happen in order, the raising one happens, all
later ones are dropped, and the false flag records that the exception
escaped. -/
def truncAtThrow (throws : Value → Bool) :
    List Invocation → List Invocation × Bool
  | [] => ([], true)
  | inv :: rest =>
    if throws inv.1 then ([inv], false)
    else
      let r := truncAtThrow throws rest
      (inv :: r.1, r.2)

/-- Instance with func 0 registered for the key k and func 7 registered
in the AllSettings bucket. -/
def wildcardListenerState : StorageAreaState :=
  { freshState with listeners :=
      [(LKey.key "k", [Value.func 0]), (LKey.allSettings, [Value.func 7])] }

/-! Helper lemmas about the dictionary embedding. -/

@[simp]
theorem lookup_nil {α β : Type} [DecidableEq α] (k : α) :
    lookup? ([] : List (α × β)) k = none :=
  rfl

@[simp]
theorem lookup_cons {α β : Type} [DecidableEq α] (k2 : α) (v2 : β)
    (rest : List (α × β)) (k : α) :
    lookup? ((k2, v2) :: rest) k = if k2 = k then some v2 else lookup? rest k :=
  rfl

@[simp]
theorem hasKey_nil {α β : Type} [DecidableEq α] (k : α) :
    hasKey ([] : List (α × β)) k = false :=
  rfl

@[simp]
theorem hasKey_cons {α β : Type} [DecidableEq α] (k2 : α) (v2 : β)
    (rest : List (α × β)) (k : α) :
    hasKey ((k2, v2) :: rest) k = (if k2 = k then true else hasKey rest k) := by
  by_cases hk : k2 = k <;> simp [hasKey, hk]

theorem lookup_append_right {α β : Type} [DecidableEq α]
    (m m2 : List (α × β)) (k : α) (h : lookup? m k = none) :
    lookup? (m ++ m2) k = lookup? m2 k := by
  induction m with
  | nil => rfl
  | cons p rest ih =>
    obtain ⟨k2, v2⟩ := p
    by_cases hk : k2 = k
    · simp [hk] at h
    · simp only [lookup_cons, if_neg hk] at h
      simp only [List.cons_append, lookup_cons, if_neg hk]
      exact ih h

theorem lookup_append_left {α β : Type} [DecidableEq α]
    (m m2 : List (α × β)) (k : α) (v : β) (h : lookup? m k = some v) :
    lookup? (m ++ m2) k = some v := by
  induction m with
  | nil => simp at h
  | cons p rest ih =>
    obtain ⟨k2, v2⟩ := p
    by_cases hk : k2 = k
    · simp only [lookup_cons, if_pos hk] at h
      simp only [List.cons_append, lookup_cons, if_pos hk, h]
    · simp only [lookup_cons, if_neg hk] at h
      simp only [List.cons_append, lookup_cons, if_neg hk]
      exact ih h

theorem lookup_eq_none_of_hasKey_false {α β : Type} [DecidableEq α]
    (m : List (α × β)) (k : α) (h : hasKey m k = false) :
    lookup? m k = none := by
  unfold hasKey at h
  cases h2 : lookup? m k with
  | none => rfl
  | some v => rw [h2] at h; simp at h

theorem lookup_eq_none_of_not_mem_keys {α β : Type} [DecidableEq α]
    (m : List (α × β)) (k : α) (h : k ∉ m.map Prod.fst) :
    lookup? m k = none := by
  induction m with
  | nil => rfl
  | cons p rest ih =>
    obtain ⟨k2, v2⟩ := p
    simp only [List.map_cons, List.mem_cons, not_or] at h
    have hk : ¬k2 = k := fun hc => h.1 hc.symm
    simp only [lookup_cons, if_neg hk]
    exact ih h.2

theorem lookup_map_replace {α β : Type} [DecidableEq α]
    (m : List (α × β)) (k : α) (v : β) :
    lookup? (m.map (fun p => if p.1 = k then (k, v) else p)) k
      = if hasKey m k then some v else none := by
  induction m with
  | nil => simp
  | cons p rest ih =>
    obtain ⟨k2, v2⟩ := p
    by_cases hk : k2 = k
    · subst hk
      rw [List.map_cons, if_pos (show (k2, v2).1 = k2 from rfl)]
      simp
    · rw [List.map_cons, if_neg (show ¬(k2, v2).1 = k from hk)]
      simp only [lookup_cons, hasKey_cons, if_neg hk]
      exact ih

theorem lookup_map_replace_other {α β : Type} [DecidableEq α]
    (m : List (α × β)) (k : α) (v : β) (k2 : α) (h : k2 ≠ k) :
    lookup? (m.map (fun p => if p.1 = k then (k, v) else p)) k2
      = lookup? m k2 := by
  induction m with
  | nil => rfl
  | cons p rest ih =>
    obtain ⟨k3, v3⟩ := p
    by_cases hk : k3 = k
    · subst hk
      have h2 : ¬k3 = k2 := fun hc => h (hc.symm)
      rw [List.map_cons, if_pos (show (k3, v3).1 = k3 from rfl)]
      simp only [lookup_cons, if_neg h2]
      exact ih
    · rw [List.map_cons, if_neg (show ¬(k3, v3).1 = k from hk)]
      by_cases hk2 : k3 = k2
      · simp only [lookup_cons, if_pos hk2]
      · simp only [lookup_cons, if_neg hk2]
        exact ih

theorem lookup_upsert_self {α β : Type} [DecidableEq α]
    (m : List (α × β)) (k : α) (v : β) :
    lookup? (upsert m k v) k = some v := by
  unfold upsert
  by_cases h : hasKey m k
  · simp [h, lookup_map_replace]
  · simp only [Bool.not_eq_true] at h
    simp only [h, Bool.false_eq_true, if_false]
    rw [lookup_append_right m _ k (lookup_eq_none_of_hasKey_false m k h)]
    simp

theorem lookup_upsert_other {α β : Type} [DecidableEq α]
    (m : List (α × β)) (k : α) (v : β) (k2 : α) (h : k2 ≠ k) :
    lookup? (upsert m k v) k2 = lookup? m k2 := by
  unfold upsert
  by_cases hk : hasKey m k
  · simp only [hk, if_true]
    exact lookup_map_replace_other m k v k2 h
  · simp only [Bool.not_eq_true] at hk
    simp only [hk, Bool.false_eq_true, if_false]
    cases h2 : lookup? m k2 with
    | none =>
      rw [lookup_append_right m _ k2 h2]
      simp [if_neg (Ne.symm h)]
    | some v2 => exact lookup_append_left m _ k2 v2 h2

theorem lookup_filter_key {α β : Type} [DecidableEq α]
    (m : List (α × β)) (c : α → Bool) (k : α) :
    lookup? (m.filter (fun p => c p.1)) k
      = if c k then lookup? m k else none := by
  induction m with
  | nil => simp
  | cons p rest ih =>
    obtain ⟨k2, v2⟩ := p
    by_cases hc : c k2
    · by_cases hk : k2 = k
      · subst hk
        simp [List.filter_cons, hc]
      · simp [List.filter_cons, hc, hk, ih]
    · simp only [Bool.not_eq_true] at hc
      by_cases hk : k2 = k
      · subst hk
        simp [List.filter_cons, hc, ih]
      · simp [List.filter_cons, hc, hk, ih]

theorem mergeItems_cons (store : List (String × Value))
    (x : String × Value) (rest : List (String × Value)) :
    mergeItems store (x :: rest) = mergeItems (upsert store x.1 x.2) rest :=
  rfl

theorem lookup_mergeItems_absent (items store : List (String × Value))
    (k : String) (h : lookup? items k = none) :
    lookup? (mergeItems store items) k = lookup? store k := by
  induction items generalizing store with
  | nil => rfl
  | cons p rest ih =>
    obtain ⟨k1, v1⟩ := p
    by_cases hk : k1 = k
    · simp [hk] at h
    · simp only [lookup_cons, if_neg hk] at h
      rw [mergeItems_cons, ih _ h]
      exact lookup_upsert_other store k1 v1 k (fun hc => hk hc.symm)

theorem lookup_mergeItems_present (items store : List (String × Value))
    (k : String) (v : Value) (hnd : (items.map Prod.fst).Nodup)
    (h : lookup? items k = some v) :
    lookup? (mergeItems store items) k = some v := by
  induction items generalizing store with
  | nil => simp at h
  | cons p rest ih =>
    obtain ⟨k1, v1⟩ := p
    simp only [List.map_cons, List.nodup_cons] at hnd
    by_cases hk : k1 = k
    · subst hk
      simp at h
      subst h
      rw [mergeItems_cons]
      rw [lookup_mergeItems_absent rest _ k1
        (lookup_eq_none_of_not_mem_keys rest k1 hnd.1)]
      exact lookup_upsert_self store k1 v1
    · simp only [lookup_cons, if_neg hk] at h
      rw [mergeItems_cons]
      exact ih _ hnd.2 h

/-! Helper lemmas about dispatch and the accessor cache. -/

theorem sendList_no_throw (chg : StorageChange) (key : String)
    (l : List Value) :
    sendList (fun _ => false) chg key l
      = (l.map (fun cb => (cb, chg, key)), true) := by
  induction l with
  | nil => rfl
  | cons cb rest ih => simp [sendList, ih]

theorem truncAtThrow_append (throws : Value → Bool) (t1 t2 : List Invocation) :
    truncAtThrow throws (t1 ++ t2)
      = if (truncAtThrow throws t1).2
        then ((truncAtThrow throws t1).1 ++ (truncAtThrow throws t2).1,
              (truncAtThrow throws t2).2)
        else truncAtThrow throws t1 := by
  induction t1 with
  | nil => simp [truncAtThrow]
  | cons inv rest ih =>
    by_cases h : throws inv.1
    · simp [truncAtThrow, h]
    · by_cases h2 : (truncAtThrow throws rest).2
      · simp [truncAtThrow, h, ih, h2]
      · simp [truncAtThrow, h, ih, h2]

theorem truncAtThrow_throw_mid (throws : Value → Bool) (t1 : List Invocation)
    (inv : Invocation) (t2 : List Invocation)
    (h1 : ∀ x ∈ t1, throws x.1 = false) (h2 : throws inv.1 = true) :
    truncAtThrow throws (t1 ++ inv :: t2) = (t1 ++ [inv], false) := by
  induction t1 with
  | nil => simp [truncAtThrow, h2]
  | cons x rest ih =>
    have hx : throws x.1 = false := h1 x (by simp)
    have hrest : ∀ y ∈ rest, throws y.1 = false := fun y hy => h1 y (by simp [hy])
    simp [truncAtThrow, hx, ih hrest]

theorem sendList_eq_trunc (throws : Value → Bool) (chg : StorageChange)
    (key : String) (l : List Value) :
    sendList throws chg key l
      = truncAtThrow throws (l.map (fun cb => (cb, chg, key))) := by
  induction l with
  | nil => rfl
  | cons cb rest ih =>
    by_cases h : throws cb
    · simp [sendList, truncAtThrow, h]
    · simp [sendList, truncAtThrow, h, ih]

theorem dispatchOne_trunc (throws : Value → Bool)
    (listeners : List (LKey × List Value)) (chg : StorageChange)
    (key : String) :
    dispatchOne throws listeners chg key
      = truncAtThrow throws
          ((((lookup? listeners (LKey.key key)).getD [])
            ++ ((lookup? listeners LKey.allSettings).getD [])).map
              (fun cb => (cb, chg, key))) := by
  unfold dispatchOne
  cases h1 : lookup? listeners (LKey.key key) with
  | none =>
    cases h2 : lookup? listeners LKey.allSettings with
    | none => simp [sendList_eq_trunc, truncAtThrow]
    | some lst => simp [sendList_eq_trunc, truncAtThrow]
  | some lst =>
    cases h2 : lookup? listeners LKey.allSettings with
    | none => simp [sendList_eq_trunc, List.map_append, truncAtThrow_append]
    | some lst2 => simp [sendList_eq_trunc, List.map_append, truncAtThrow_append]

theorem dispatchAll_trunc (throws : Value → Bool)
    (listeners : List (LKey × List Value))
    (changes : List (String × StorageChange)) :
    dispatchAll throws listeners changes
      = truncAtThrow throws (dispatchPlan listeners changes) := by
  induction changes with
  | nil => rfl
  | cons p rest ih =>
    obtain ⟨k, c⟩ := p
    simp only [dispatchAll, dispatchOne_trunc, ih]
    rw [← truncAtThrow_append]
    simp [dispatchPlan, List.flatMap_cons]

theorem onChanged_trunc (throws : Value → Bool) (s : StorageAreaState)
    (changes : List (String × StorageChange)) (areaName : String) :
    onChanged throws s changes areaName
      = if areaName = s.storageName
        then truncAtThrow throws (dispatchPlan s.listeners changes)
        else ([], true) := by
  unfold onChanged
  by_cases h : areaName = s.storageName
  · rw [if_pos h, if_pos h]
    exact dispatchAll_trunc throws s.listeners changes
  · rw [if_neg h, if_neg h]

theorem dispatchOne_no_throw (listeners : List (LKey × List Value))
    (chg : StorageChange) (key : String) :
    dispatchOne (fun _ => false) listeners chg key
      = ((((lookup? listeners (LKey.key key)).getD [])
          ++ ((lookup? listeners LKey.allSettings).getD [])).map
            (fun cb => (cb, chg, key)), true) := by
  unfold dispatchOne
  cases h1 : lookup? listeners (LKey.key key) with
  | none =>
    cases h2 : lookup? listeners LKey.allSettings with
    | none => simp [sendList_no_throw]
    | some lst => simp [sendList_no_throw]
  | some lst =>
    cases h2 : lookup? listeners LKey.allSettings with
    | none => simp [sendList_no_throw]
    | some lst2 => simp [sendList_no_throw]

theorem dispatchAll_no_throw (listeners : List (LKey × List Value))
    (changes : List (String × StorageChange)) :
    dispatchAll (fun _ => false) listeners changes
      = (changes.flatMap (fun p =>
          (((lookup? listeners (LKey.key p.1)).getD [])
            ++ ((lookup? listeners LKey.allSettings).getD [])).map
              (fun cb => (cb, p.2, p.1))), true) := by
  induction changes with
  | nil => rfl
  | cons p rest ih =>
    obtain ⟨k, c⟩ := p
    simp [dispatchAll, dispatchOne_no_throw, ih, List.flatMap_cons]

theorem accessor_idem (s : StorageAreaState) (key : String) :
    accessor (accessor s key).2 key = accessor s key := by
  unfold accessor
  cases h : lookup? s.accessors key with
  | some a => simp [h]
  | none =>
    unfold makeAccessor
    simp [lookup_upsert_self]

/-! Claim theorems. -/

/-- C1 counterexample: the schema key named get collides with the class
method get, which the claim says is skipped at construction, yet
_makeProperties exposes the field anyway: the hasOwnProperty check sees
only own instance fields, and class methods live on the prototype. -/
theorem c1_counterexample_method_get_not_skipped :
    makeProperties [("get", Value.number 1)] = ["get"] ∧
    "get" ∈ prototypeMethods ∧ "get" ∉ constructionOwnFields := by
  decide

/-- C1 amended: at construction the facade exposes one accessor-resolving
field per schema key, skipped exactly for a key colliding with an own
instance field (defaults, _storage, _storageName, _accessors, _listeners,
_onChanged); a key matching only a prototype method name such as get or
set is not skipped, and the field it defines shadows that method.  The
skip decision is the single construction-time computation
makeProperties. -/
theorem c1_makeProperties_exposes_non_own_fields
    (defaults : List (String × Value)) (k : String) :
    k ∈ makeProperties defaults
      ↔ k ∈ defaults.map Prod.fst ∧ k ∉ constructionOwnFields := by
  unfold makeProperties
  rw [List.mem_filter]
  simp

/-- C2 counterexample: with func 0 and func 1 registered, in this order,
for the key k and func 0 throwing when invoked, dispatching one matching
change event invokes only func 0 and aborts: the exception thrown by the
first listener prevents the remaining listener func 1, registered in the
same dispatch, from running. -/
theorem c2_counterexample_throw_blocks_sibling :
    onChanged throwsFunc0 twoListenerState [("k", sampleChange)] "local"
      = ([(Value.func 0, sampleChange, "k")], false) ∧
    (Value.func 1, sampleChange, "k")
      ∉ (onChanged throwsFunc0 twoListenerState
          [("k", sampleChange)] "local").1 := by
  decide

/-- C2 amended: for every registry and every matching change event, an
exception thrown by one listener aborts the whole dispatch.  Writing the
planned invocation sequence of the event (for each changed key in event
order, its specific listeners then the AllSettings listeners, each in
registration order) as t1 followed by inv followed by t2, where no
invocation of t1 throws and inv throws, the handler performs exactly the
invocations of t1 in order and then inv, the exception escapes the
handler, and nothing of t2 runs: neither later listeners of the same
key, nor its AllSettings listeners, nor listeners for later changed
keys. -/
theorem c2_dispatch_aborts_on_listener_exception (s : StorageAreaState)
    (throws : Value → Bool) (changes : List (String × StorageChange))
    (t1 : List Invocation) (inv : Invocation) (t2 : List Invocation)
    (hplan : dispatchPlan s.listeners changes = t1 ++ inv :: t2)
    (h1 : ∀ x ∈ t1, throws x.1 = false) (h2 : throws inv.1 = true) :
    onChanged throws s changes s.storageName = (t1 ++ [inv], false) := by
  rw [onChanged_trunc, if_pos rfl, hplan]
  exact truncAtThrow_throw_mid throws t1 inv t2 h1 h2

/-- C2 amended, witness: func 0 is registered for the key k and throws;
func 7 is registered in the AllSettings bucket and is planned after it,
yet does not run. -/
theorem c2_dispatch_aborts_witness :
    onChanged throwsFunc0 wildcardListenerState [("k", sampleChange)]
        wildcardListenerState.storageName
      = ([(Value.func 0, sampleChange, "k")], false) := by
  have h := c2_dispatch_aborts_on_listener_exception wildcardListenerState
    throwsFunc0 [("k", sampleChange)] [] (Value.func 0, sampleChange, "k")
    [(Value.func 7, sampleChange, "k")] (by decide) (by simp) rfl
  simpa using h

/-- C3 counterexample: addListener with the key k and the callback 5, a
truthy value that is not a function, does not fail: the call succeeds
and registers the number 5 in the registry, so a malformed callback
argument neither raises InvalidArgumentError nor leaves the registration
state unchanged. -/
theorem c3_counterexample_nonfunction_callback_registered :
    facadeAddListener freshState (Value.string "k") (Value.number 5)
      = (.ok (), { freshState with
          listeners := [(LKey.key "k", [Value.number 5])] }) := by
  rfl

/-- C3 amended: the malformed argument shapes the code does validate
fail immediately with a TypeError and leave the listener registry
unchanged; they are a truthy second argument with a non-string first
argument, and a falsy or missing second argument with a non-function
first argument.  A truthy non-function second argument passes
validation and is registered. -/
theorem c3_checked_shapes_fail_fast (s : StorageAreaState) (a0 a1 : Value)
    (h : (truthy a1 = true ∧ typeofIsString a0 = false)
       ∨ (truthy a1 = false ∧ typeofIsFunction a0 = false)) :
    ∃ msg, getListenerArgs a0 a1 = .error msg ∧
      facadeAddListener s a0 a1 = (.error msg, s) ∧
      facadeRemoveListener s a0 a1 = (.error msg, s) := by
  have hga : ∃ msg, getListenerArgs a0 a1 = Except.error msg := by
    rcases h with ⟨ht, hs⟩ | ⟨ht, hf⟩
    · refine ⟨"Expected key to be a string", ?_⟩
      unfold getListenerArgs
      rw [if_pos ht]
      cases a0 <;> first | rfl | simp [typeofIsString] at hs
    · refine ⟨"Expected callback to be a function", ?_⟩
      unfold getListenerArgs
      rw [if_neg (by simp [ht])]
      cases a0 <;> first | rfl | simp [typeofIsFunction] at hf
  obtain ⟨msg, hm⟩ := hga
  refine ⟨msg, hm, ?_, ?_⟩
  · unfold facadeAddListener
    rw [hm]
  · unfold facadeRemoveListener
    rw [hm]

/-- C3 amended, witness: a numeric key with a function callback. -/
theorem c3_checked_shapes_witness :
    ∃ msg, getListenerArgs (Value.number 7) (Value.func 0) = .error msg ∧
      facadeAddListener freshState (Value.number 7) (Value.func 0)
        = (.error msg, freshState) ∧
      facadeRemoveListener freshState (Value.number 7) (Value.func 0)
        = (.error msg, freshState) :=
  c3_checked_shapes_fail_fast freshState (Value.number 7) (Value.func 0)
    (Or.inl ⟨rfl, rfl⟩)

/-- C4: reset(key) with a declared default performs exactly one bulk
write placing that default at the key, overwriting whatever value was
stored; reset(key) for a key absent from the defaults map fails with the
NoDefaultError message and performs no backend write. -/
theorem c4_reset_spec (s : StorageAreaState) (b : Backend) (key : String) :
    if hasKey s.defaults key then
      (facadeReset s b key).1 = .ok () ∧
      lookup? (facadeReset s b key).2.store key
        = some (indexObj s.defaults key) ∧
      (facadeReset s b key).2.writes
        = b.writes ++ [[(key, indexObj s.defaults key)]]
    else
      facadeReset s b key
        = (.error ("No default value for setting: " ++ key), b) := by
  by_cases h : hasKey s.defaults key
  · rw [if_pos h]
    unfold facadeReset
    rw [if_pos h]
    refine ⟨rfl, ?_, rfl⟩
    show lookup?
      (mergeItems b.store [(key, indexObj s.defaults key)]) key = _
    rw [mergeItems_cons]
    exact lookup_upsert_self b.store key _
  · rw [if_neg h]
    unfold facadeReset
    rw [if_neg h]

/-- C5: initDefaults reads the full stored map and performs exactly one
bulk write, containing exactly the defaults entries whose key is absent
from the stored map; afterwards every already-stored key keeps its old
value and every unset schema key holds its declared default.  The Nodup
hypothesis records that a JS object never repeats a key. -/
theorem c5_initDefaults_spec (s : StorageAreaState) (b : Backend)
    (hnd : (s.defaults.map Prod.fst).Nodup) :
    (facadeInitDefaults s b).writes
      = b.writes ++ [s.defaults.filter (fun p => !(hasKey b.store p.1))] ∧
    ∀ k, lookup? (facadeInitDefaults s b).store k
      = if hasKey b.store k then lookup? b.store k
        else lookup? s.defaults k := by
  constructor
  · rfl
  · intro k
    have hfil : lookup? (initDefaultsItems s.defaults b.store) k
        = if !(hasKey b.store k) then lookup? s.defaults k else none := by
      unfold initDefaultsItems
      exact lookup_filter_key s.defaults (fun x => !(hasKey b.store x)) k
    by_cases hs : hasKey b.store k
    · rw [if_pos hs]
      have hitems : lookup? (initDefaultsItems s.defaults b.store) k = none := by
        rw [hfil, hs]
        rfl
      exact lookup_mergeItems_absent _ _ _ hitems
    · rw [if_neg hs]
      have hsf : hasKey b.store k = false := by
        simpa using hs
      cases hd : lookup? s.defaults k with
      | none =>
        have hitems : lookup? (initDefaultsItems s.defaults b.store) k
            = none := by
          rw [hfil, hsf, hd]
          rfl
        show lookup?
          (mergeItems b.store (initDefaultsItems s.defaults b.store)) k = none
        rw [lookup_mergeItems_absent _ _ _ hitems]
        exact lookup_eq_none_of_hasKey_false _ _ hsf
      | some v =>
        have hitems : lookup? (initDefaultsItems s.defaults b.store) k
            = some v := by
          rw [hfil, hsf, hd]
          rfl
        have hndItems :
            ((initDefaultsItems s.defaults b.store).map Prod.fst).Nodup :=
          List.Nodup.sublist
            (List.Sublist.map Prod.fst (List.filter_sublist s.defaults)) hnd
        exact lookup_mergeItems_present _ _ _ _ hndItems hitems

/-- C5 witness: with backend store a:1 and defaults a:2, b:3, the call
writes exactly b:3 and afterwards a reads 1 and b reads 3. -/
theorem c5_initDefaults_witness :
    lookup? (facadeInitDefaults sampleDefaultsState sampleBackend).store "a"
        = some (Value.number 1) ∧
    lookup? (facadeInitDefaults sampleDefaultsState sampleBackend).store "b"
        = some (Value.number 3) ∧
    (facadeInitDefaults sampleDefaultsState sampleBackend).writes
        = [[("b", Value.number 3)]] := by
  have h := c5_initDefaults_spec sampleDefaultsState sampleBackend (by decide)
  refine ⟨?_, ?_, ?_⟩
  · have := h.2 "a"
    simpa using this
  · have := h.2 "b"
    simpa using this
  · have := h.1
    simpa using this

/-- C6: get(key) is determined by the backend store alone, resolving to
the stored value or to undefined when the key is unset, never to the
declared default; get() with no argument is exactly the stored map, with
no defaults merged in. -/
theorem c6_get_no_default_merging (b : Backend) (key : String) :
    facadeGet b key = (lookup? b.store key).getD Value.undefined ∧
    facadeGetAll b = b.store := by
  constructor
  · unfold facadeGet indexObj backendGetSingle
    rw [lookup_filter_key b.store (fun x => decide (x = key)) key]
    simp
  · rfl

/-- C7: accessor(key) is memoized: calling it again on the state left by
a first call returns the very same accessor object (equal id) and leaves
the state unchanged, so two calls on one instance yield the identical
accessor. -/
theorem c7_accessor_memoized (s : StorageAreaState) (key : String) :
    accessor (accessor s key).2 key = accessor s key :=
  accessor_idem s key

/-- C8: the change handler ignores an event whose area name differs from
the configured one before consulting any listener; otherwise, with no
listener throwing, it processes the changed keys in event order and for
each dispatches the key-specific listener set first and the AllSettings
set second, each in registration order, passing the per-key change
record and the key name. -/
theorem c8_onChanged_filter_and_order (s : StorageAreaState)
    (changes : List (String × StorageChange)) (areaName : String) :
    onChanged (fun _ => false) s changes areaName
      = if areaName = s.storageName then
          (changes.flatMap (fun p =>
            (((lookup? s.listeners (LKey.key p.1)).getD [])
              ++ ((lookup? s.listeners LKey.allSettings).getD [])).map
                (fun cb => (cb, p.2, p.1))), true)
        else ([], true) := by
  unfold onChanged
  by_cases h : areaName = s.storageName
  · rw [if_pos h, if_pos h]
    exact dispatchAll_no_throw s.listeners changes
  · rw [if_neg h, if_neg h]

/-- C9: dispose unsubscribes the handler from the feed and empties the
listener registry, so delivery of any later backend change event to the
disposed instance runs no listener at all. -/
theorem c9_dispose_stops_delivery (s : StorageAreaState)
    (throws : Value → Bool) (changes : List (String × StorageChange))
    (areaName : String) :
    deliverEvent throws (dispose s) changes areaName = ([], true) ∧
    (dispose s).listeners = [] :=
  ⟨rfl, rfl⟩

/-- C10: for a key outside the defaults map, the first accessor(key)
call still succeeds: it returns an accessor whose key field is the
requested key and whose default field is undefined, memoizes it so that
a repeated call yields the identical object, and its closures forward to
the key-scoped facade operations. -/
theorem c10_accessor_outside_schema (s : StorageAreaState) (key : String)
    (hdef : hasKey s.defaults key = false)
    (hca : lookup? s.accessors key = none) :
    (accessor s key).1.key = key ∧
    (accessor s key).1.default = Value.undefined ∧
    accessor (accessor s key).2 key = accessor s key ∧
    (∀ b, Accessor.get (accessor s key).1 b = facadeGet b key) ∧
    (∀ b v, Accessor.set (accessor s key).1 b v = facadeSetKV b key v) ∧
    (∀ s2 b, Accessor.reset (accessor s key).1 s2 b = facadeReset s2 b key) ∧
    (∀ s2 cb, Accessor.addListener (accessor s key).1 s2 cb
      = facadeAddListener s2 (Value.string key) cb) ∧
    (∀ s2 cb, Accessor.removeListener (accessor s key).1 s2 cb
      = facadeRemoveListener s2 (Value.string key) cb) := by
  have hk : (accessor s key).1.key = key := by
    unfold accessor
    rw [hca]
    rfl
  have hd : (accessor s key).1.default = Value.undefined := by
    unfold accessor
    rw [hca]
    unfold makeAccessor indexObj
    simp [lookup_eq_none_of_hasKey_false s.defaults key hdef]
  refine ⟨hk, hd, accessor_idem s key, ?_, ?_, ?_, ?_, ?_⟩
  · intro b
    unfold Accessor.get
    rw [hk]
  · intro b v
    unfold Accessor.set
    rw [hk]
  · intro s2 b
    unfold Accessor.reset
    rw [hk]
  · intro s2 cb
    unfold Accessor.addListener
    rw [hk]
  · intro s2 cb
    unfold Accessor.removeListener
    rw [hk]

/-- C10 witness: the key x on a fresh instance with an empty schema. -/
theorem c10_accessor_outside_schema_witness :
    (accessor freshState "x").1.key = "x" ∧
    (accessor freshState "x").1.default = Value.undefined ∧
    accessor (accessor freshState "x").2 "x" = accessor freshState "x" := by
  have h := c10_accessor_outside_schema freshState "x" rfl rfl
  exact ⟨h.1, h.2.1, h.2.2.1⟩

end WebextStorage
